import Mathlib

/-!
Verification of the project-registration API in src/backend/main.py
(the persisted, SQLite-backed iteration, which the spec treats as normative).

The embedding models the store as the list of table rows in insertion
(rowid) order, with SQLite integer-primary-key identity assignment
(one more than the largest identity present).  The HTTP handlers
create_project, list_projects and read_root are embedded as pure
functions on that state.
-/

/-- The input model ProjectCreate from src/backend/main.py: five string
fields, the email validated on entry. -/
structure ProjectCreate where
  name : String
  owner : String
  location : String
  sector : String
  email : String
deriving DecidableEq, Repr

/-- The table model Project from src/backend/main.py: an optional integer
primary key (None until the store assigns it) plus the five business
fields.  ProjectRead, the response model, has exactly the same fields. -/
structure Project where
  id : Option Nat
  name : String
  owner : String
  location : String
  sector : String
  email : String
deriving DecidableEq, Repr

/-- Splits a character list at a single at-sign: returns the local part and
the domain when the list holds exactly one at-sign, and none otherwise. -/
def splitAtSign : List Char → Option (List Char × List Char)
  | [] => none
  | c :: rest =>
    if c = '@' then
      if rest.contains '@' then none else some ([], rest)
    else
      match splitAtSign rest with
      | some (l, d) => some (c :: l, d)
      | none => none

/-- Modelled from the spec: email syntax validation is delegated to pydantic
EmailStr (the email-validator package), whose code is not part of this
repository.  Section 4.1 of the spec states the enforced rule: a local part,
an at-sign, and a domain with at least one dot; no deliverability check. -/
def isValidEmail (e : String) : Bool :=
  match splitAtSign e.data with
  | some (l, d) => !l.isEmpty && !d.isEmpty && d.contains '.'
  | none => false

/-- The SQLite table of the persisted iteration: rows kept in insertion
(rowid) order.  A select with no order-by returns them in this order. -/
structure StoreState where
  rows : List Project
deriving DecidableEq, Repr

/-- The largest identity present in the table (0 for an empty table). -/
def maxId (s : StoreState) : Nat :=
  s.rows.foldl (fun m r => max m (r.id.getD 0)) 0

/-- SQLite integer-primary-key assignment: the identity given to the next
inserted row is one more than the largest identity present. -/
def nextId (s : StoreState) : Nat := maxId s + 1

/-- A JSON object request body, restricted to string field values (the only
values the claims concern). -/
structure RawBody where
  fields : List (String × String)
deriving DecidableEq, Repr

/-- First-match field lookup in a request body. -/
def RawBody.lookup (b : RawBody) (k : String) : Option String :=
  (b.fields.find? (fun kv => kv.1 == k)).map (fun kv => kv.2)

/-- Modelled from the spec: FastAPI parses the request body into
ProjectCreate with pydantic, whose code is not part of this repository.
All five fields are required; the email must pass `isValidEmail`; unknown
extra fields are ignored (the pydantic default).  Failure means HTTP 422. -/
def parseProjectCreate (b : RawBody) : Option ProjectCreate :=
  match b.lookup "name", b.lookup "owner", b.lookup "location",
        b.lookup "sector", b.lookup "email" with
  | some n, some o, some l, some se, some e =>
    if isValidEmail e then some ⟨n, o, l, se, e⟩ else none
  | _, _, _, _, _ => none

/-- The HTTP response of POST /projects/: a status code and, on success,
the stored record (the ProjectRead representation). -/
structure CreateResponse where
  status : Nat
  body : Option Project
deriving DecidableEq, Repr

/-- create_project from src/backend/main.py: FastAPI validates the body
(422 on failure, the handler never runs); on success the handler copies the
validated fields into a table row (Project.model_validate), inserts it, the
store assigns the identity (session.refresh), and the row is returned with
status 201. -/
def create_project (s : StoreState) (b : RawBody) : CreateResponse × StoreState :=
  match parseProjectCreate b with
  | none => (⟨422, none⟩, s)
  | some pc =>
    let db : Project :=
      { id := some (nextId s), name := pc.name, owner := pc.owner,
        location := pc.location, sector := pc.sector, email := pc.email }
    (⟨201, some db⟩, ⟨s.rows ++ [db]⟩)

/-- list_projects from src/backend/main.py: select all rows and return them
with status 200.  Reading leaves the store unchanged. -/
def list_projects (s : StoreState) : (Nat × List Project) × StoreState :=
  ((200, s.rows), s)

/-- read_root from src/backend/main.py: status 200 with a fixed one-field
greeting payload. -/
def read_root : Nat × List (String × String) :=
  (200, [("message", "API de la Plataforma de Contenidos funcionando con SQLite!")])

/-- A request body holding exactly the five business fields. -/
def mkBody (n o l se e : String) : RawBody :=
  ⟨[("name", n), ("owner", o), ("location", l), ("sector", se), ("email", e)]⟩

/-- Runs a sequence of create requests against the store. -/
def runCreates (s : StoreState) : List RawBody → StoreState
  | [] => s
  | b :: bs => runCreates (create_project s b).2 bs

/-- The records returned by the successful creates of a request sequence,
in the order they were created. -/
def createdDuring (s : StoreState) : List RawBody → List Project
  | [] => []
  | b :: bs =>
    match (create_project s b).1.body with
    | some p => p :: createdDuring (create_project s b).2 bs
    | none => createdDuring (create_project s b).2 bs

/-- The identities of the rows of the store, in storage order. -/
def idsOf (s : StoreState) : List Nat := s.rows.map (fun r => r.id.getD 0)

-- Basic lemmas about the embedding.

theorem parse_mkBody (n o l se e : String) :
    parseProjectCreate (mkBody n o l se e) =
      if isValidEmail e then some ⟨n, o, l, se, e⟩ else none := rfl

theorem foldl_max_init_le (f : Project → Nat) (l : List Project) (a : Nat) :
    a ≤ l.foldl (fun m r => max m (f r)) a := by
  induction l generalizing a with
  | nil => exact Nat.le_refl a
  | cons x xs ih => exact Nat.le_trans (Nat.le_max_left a (f x)) (ih (max a (f x)))

theorem mem_le_foldl_max (f : Project → Nat) (l : List Project) :
    ∀ (a : Nat) (r : Project), r ∈ l → f r ≤ l.foldl (fun m r => max m (f r)) a := by
  induction l with
  | nil => intro a r hr; cases hr
  | cons x xs ih =>
    intro a r hr
    rcases List.mem_cons.mp hr with hr | hr
    · subst hr
      exact Nat.le_trans (Nat.le_max_right a (f r)) (foldl_max_init_le f xs _)
    · exact ih _ r hr

theorem mem_le_maxId (s : StoreState) (r : Project) (hr : r ∈ s.rows) :
    r.id.getD 0 ≤ maxId s :=
  mem_le_foldl_max (fun r => r.id.getD 0) s.rows 0 r hr

theorem maxId_append_one (s : StoreState) (p : Project) :
    maxId ⟨s.rows ++ [p]⟩ = max (maxId s) (p.id.getD 0) := by
  unfold maxId
  rw [List.foldl_append]
  rfl

/-- The empty store: the state of a freshly created table. -/
def emptyStore : StoreState := ⟨[]⟩

theorem create_rows (s : StoreState) (b : RawBody) :
    (create_project s b).2.rows = s.rows ++ ((create_project s b).1.body).toList := by
  unfold create_project
  cases parseProjectCreate b <;> simp

theorem runCreates_rows (bs : List RawBody) :
    ∀ s : StoreState, (runCreates s bs).rows = s.rows ++ createdDuring s bs := by
  induction bs with
  | nil => intro s; simp [runCreates, createdDuring]
  | cons b bs ih =>
    intro s
    show (runCreates (create_project s b).2 bs).rows = _
    rw [ih, create_rows]
    cases h : (create_project s b).1.body <;> simp [createdDuring, h]

theorem mem_idsOf_lt_nextId (s : StoreState) (x : Nat) (hx : x ∈ idsOf s) :
    x < nextId s := by
  rcases List.mem_map.mp hx with ⟨r, hr, rfl⟩
  exact Nat.lt_succ_of_le (mem_le_maxId s r hr)

theorem pairwise_create (s : StoreState) (b : RawBody)
    (h : List.Pairwise (· < ·) (idsOf s)) :
    List.Pairwise (· < ·) (idsOf (create_project s b).2) := by
  unfold create_project
  cases hp : parseProjectCreate b with
  | none => simpa [idsOf] using h
  | some pc =>
    simp only [idsOf, List.map_append]
    refine List.pairwise_append.mpr ⟨h, List.pairwise_singleton _ _, ?_⟩
    intro x hx y hy
    simp only [List.map_cons, List.map_nil, List.mem_singleton] at hy
    subst hy
    exact mem_idsOf_lt_nextId s x hx

theorem pairwise_runCreates (bs : List RawBody) :
    ∀ s : StoreState, List.Pairwise (· < ·) (idsOf s) →
      List.Pairwise (· < ·) (idsOf (runCreates s bs)) := by
  induction bs with
  | nil => intro s h; exact h
  | cons b bs ih => intro s h; exact ih _ (pairwise_create s b h)

theorem allSome_create (s : StoreState) (b : RawBody)
    (h : ∀ r ∈ s.rows, r.id.isSome = true) :
    ∀ r ∈ (create_project s b).2.rows, r.id.isSome = true := by
  intro r hr
  rw [create_rows] at hr
  rcases List.mem_append.mp hr with hr | hr
  · exact h r hr
  · cases hb : (create_project s b).1.body with
    | none => rw [hb] at hr; cases hr
    | some p =>
      rw [hb] at hr
      simp only [Option.toList, List.mem_singleton] at hr
      subst hr
      unfold create_project at hb
      cases hp : parseProjectCreate b with
      | none => rw [hp] at hb; cases hb
      | some pc =>
        rw [hp] at hb
        simp only [Option.some.injEq] at hb
        rw [← hb]
        rfl

theorem allSome_runCreates (bs : List RawBody) :
    ∀ s : StoreState, (∀ r ∈ s.rows, r.id.isSome = true) →
      ∀ r ∈ (runCreates s bs).rows, r.id.isSome = true := by
  induction bs with
  | nil => intro s h; exact h
  | cons b bs ih => intro s h; exact ih _ (allSome_create s b h)

theorem lookup_append_none (fs extras : List (String × String)) (k : String)
    (hk : ∀ kv ∈ extras, ¬kv.1 = k) :
    RawBody.lookup ⟨fs ++ extras⟩ k = RawBody.lookup ⟨fs⟩ k := by
  unfold RawBody.lookup
  rw [List.find?_append]
  have hnone : extras.find? (fun kv => kv.1 == k) = none := by
    rw [List.find?_eq_none]
    intro kv hkv
    simpa using hk kv hkv
  rw [hnone]
  cases fs.find? (fun kv => kv.1 == k) <;> rfl

theorem create_mkBody_valid (s : StoreState) (n o l se e : String)
    (h : isValidEmail e = true) :
    create_project s (mkBody n o l se e) =
      (⟨201, some ⟨some (nextId s), n, o, l, se, e⟩⟩,
        ⟨s.rows ++ [⟨some (nextId s), n, o, l, se, e⟩]⟩) := by
  have hp : parseProjectCreate (mkBody n o l se e) = some ⟨n, o, l, se, e⟩ := by
    simp [parse_mkBody, h]
  simp [create_project, hp]

theorem create_success_eq (s : StoreState) (b : RawBody) (pc : ProjectCreate)
    (hp : parseProjectCreate b = some pc) :
    create_project s b =
      (⟨201, some ⟨some (nextId s), pc.name, pc.owner, pc.location, pc.sector, pc.email⟩⟩,
        ⟨s.rows ++ [⟨some (nextId s), pc.name, pc.owner, pc.location, pc.sector, pc.email⟩]⟩) := by
  simp [create_project, hp]

theorem create_body_some (s : StoreState) (b : RawBody) (p : Project)
    (h : (create_project s b).1.body = some p) :
    ∃ pc : ProjectCreate, parseProjectCreate b = some pc ∧
      p = ⟨some (nextId s), pc.name, pc.owner, pc.location, pc.sector, pc.email⟩ := by
  cases hp : parseProjectCreate b with
  | none => rw [show create_project s b = (⟨422, none⟩, s) by simp [create_project, hp]] at h; cases h
  | some pc =>
    rw [create_success_eq s b pc hp] at h
    exact ⟨pc, rfl, (Option.some.injEq _ _ ▸ h).symm⟩

theorem nextId_after_success (s : StoreState) (b : RawBody) (pc : ProjectCreate)
    (hp : parseProjectCreate b = some pc) :
    nextId (create_project s b).2 = nextId s + 1 := by
  rw [create_success_eq s b pc hp]
  show nextId ⟨s.rows ++ [_]⟩ = _
  unfold nextId
  rw [maxId_append_one]
  simp only [Option.getD_some, nextId]
  omega

-- Claim theorems.

/-- C1: for every valid input (five string fields with a syntactically valid
email), create followed immediately by list yields the previous sequence of
records extended by exactly one new record whose five business fields equal
the input and whose identity is assigned and distinct from the identity of
every record already in the store. -/
theorem C1_create_then_list (s : StoreState) (n o l se e : String)
    (h : isValidEmail e = true) :
    ∃ p : Project,
      create_project s (mkBody n o l se e) = (⟨201, some p⟩, ⟨s.rows ++ [p]⟩) ∧
      (list_projects (create_project s (mkBody n o l se e)).2).1.2 = s.rows ++ [p] ∧
      p.name = n ∧ p.owner = o ∧ p.location = l ∧ p.sector = se ∧ p.email = e ∧
      p.id.isSome = true ∧
      ∀ r ∈ s.rows, r.id ≠ p.id := by
  refine ⟨⟨some (nextId s), n, o, l, se, e⟩, create_mkBody_valid s n o l se e h,
    ?_, rfl, rfl, rfl, rfl, rfl, rfl, ?_⟩
  · rw [create_mkBody_valid s n o l se e h]
    rfl
  · intro r hr hcon
    have hle := mem_le_maxId s r hr
    rw [hcon] at hle
    simp only [Option.getD_some, nextId] at hle
    omega

/-- Concrete instance of C1: scenario B input on the empty store. -/
theorem C1_create_then_list_witness :
    ∃ p : Project,
      create_project emptyStore
          (mkBody "Solar Grid" "Ana Ruiz" "Madrid" "Energy" "ana@example.com")
        = (⟨201, some p⟩, ⟨emptyStore.rows ++ [p]⟩) ∧
      (list_projects (create_project emptyStore
          (mkBody "Solar Grid" "Ana Ruiz" "Madrid" "Energy" "ana@example.com")).2).1.2
        = emptyStore.rows ++ [p] ∧
      p.name = "Solar Grid" ∧ p.owner = "Ana Ruiz" ∧ p.location = "Madrid" ∧
      p.sector = "Energy" ∧ p.email = "ana@example.com" ∧
      p.id.isSome = true ∧
      ∀ r ∈ emptyStore.rows, r.id ≠ p.id :=
  C1_create_then_list emptyStore "Solar Grid" "Ana Ruiz" "Madrid" "Energy"
    "ana@example.com" (by decide)

/-- C2: for every input whose email field is syntactically invalid, create
fails with status 422 and the store is unchanged: list before the failed
call equals list after it. -/
theorem C2_invalid_email_rejected (s : StoreState) (n o l se e : String)
    (h : isValidEmail e = false) :
    create_project s (mkBody n o l se e) = (⟨422, none⟩, s) ∧
    (list_projects (create_project s (mkBody n o l se e)).2).1
      = (list_projects s).1 := by
  have hp : parseProjectCreate (mkBody n o l se e) = none := by
    simp [parse_mkBody, h]
  refine ⟨?_, ?_⟩ <;> simp [create_project, hp]

/-- Concrete instance of C2: the email "not-an-email" is rejected with 422
and a one-row store is left unchanged. -/
theorem C2_invalid_email_rejected_witness :
    create_project ⟨[⟨some 1, "a", "b", "c", "d", "a@b.c"⟩]⟩
        (mkBody "n" "o" "l" "s" "not-an-email")
      = (⟨422, none⟩, ⟨[⟨some 1, "a", "b", "c", "d", "a@b.c"⟩]⟩) ∧
    (list_projects (create_project ⟨[⟨some 1, "a", "b", "c", "d", "a@b.c"⟩]⟩
        (mkBody "n" "o" "l" "s" "not-an-email")).2).1
      = (list_projects ⟨[⟨some 1, "a", "b", "c", "d", "a@b.c"⟩]⟩).1 :=
  C2_invalid_email_rejected ⟨[⟨some 1, "a", "b", "c", "d", "a@b.c"⟩]⟩
    "n" "o" "l" "s" "not-an-email" (by decide)

/-- C3: after any sequence of create requests against an initially empty
store, list returns exactly the successfully created records in creation
order, and their identities are strictly ascending (primary-key order). -/
theorem C3_list_creation_order (bs : List RawBody) :
    (list_projects (runCreates emptyStore bs)).1.2 = createdDuring emptyStore bs ∧
    List.Sorted (· < ·) (idsOf (runCreates emptyStore bs)) := by
  constructor
  · show (runCreates emptyStore bs).rows = _
    rw [runCreates_rows]
    rfl
  · exact pairwise_runCreates bs emptyStore List.Pairwise.nil

/-- C4: every accepted email is stored and returned verbatim: the record
returned by create and appearing last in the subsequent list holds exactly
the submitted email string. -/
theorem C4_email_verbatim (s : StoreState) (n o l se e : String)
    (h : isValidEmail e = true) :
    ∃ p : Project,
      (create_project s (mkBody n o l se e)).1.body = some p ∧
      p.email = e ∧
      ((list_projects (create_project s (mkBody n o l se e)).2).1.2).getLast?
        = some p := by
  refine ⟨⟨some (nextId s), n, o, l, se, e⟩, ?_, rfl, ?_⟩
  · rw [create_mkBody_valid s n o l se e h]
  · rw [create_mkBody_valid s n o l se e h]
    show (s.rows ++ [_]).getLast? = _
    simp

/-- Concrete instance of C4: a mixed-case email is stored character for
character, with no case folding of the domain. -/
theorem C4_email_verbatim_witness :
    ∃ p : Project,
      (create_project emptyStore
          (mkBody "n" "o" "l" "s" "Ana.Ruiz@Example.COM")).1.body = some p ∧
      p.email = "Ana.Ruiz@Example.COM" ∧
      ((list_projects (create_project emptyStore
          (mkBody "n" "o" "l" "s" "Ana.Ruiz@Example.COM")).2).1.2).getLast?
        = some p :=
  C4_email_verbatim emptyStore "n" "o" "l" "s" "Ana.Ruiz@Example.COM" (by decide)

/-- C5: two sequential successful create calls return records with distinct
identities, and after any sequence of create requests from the empty store
every row has an assigned identity (its five business fields being string
fields of the record, always present) and all row identities are pairwise
distinct. -/
theorem C5_unique_ids :
    (∀ (s : StoreState) (b1 b2 : RawBody) (p1 p2 : Project),
      (create_project s b1).1.body = some p1 →
      (create_project (create_project s b1).2 b2).1.body = some p2 →
      p1.id ≠ p2.id) ∧
    ∀ bs : List RawBody,
      (∀ r ∈ (runCreates emptyStore bs).rows, r.id.isSome = true) ∧
      List.Pairwise (fun r1 r2 : Project => r1.id ≠ r2.id)
        (runCreates emptyStore bs).rows := by
  constructor
  · intro s b1 b2 p1 p2 h1 h2
    obtain ⟨pc1, hp1, hP1⟩ := create_body_some s b1 p1 h1
    obtain ⟨pc2, hp2, hP2⟩ := create_body_some (create_project s b1).2 b2 p2 h2
    rw [hP1, hP2, nextId_after_success s b1 pc1 hp1]
    simp only [ne_eq, Option.some.injEq]
    omega
  · intro bs
    refine ⟨allSome_runCreates bs emptyStore (fun r hr => absurd hr (by simp [emptyStore])), ?_⟩
    have hpw := pairwise_runCreates bs emptyStore List.Pairwise.nil
    unfold idsOf at hpw
    have hpw2 := List.pairwise_map.mp hpw
    refine hpw2.imp ?_
    intro r1 r2 hlt heq
    rw [heq] at hlt
    exact Nat.lt_irrefl _ hlt

/-- Concrete instance of C5: the records returned by two sequential creates
on the empty store carry the identities 1 and 2, which differ. -/
theorem C5_unique_ids_witness :
    (⟨some 1, "a", "b", "c", "d", "a@b.c"⟩ : Project).id
      ≠ (⟨some 2, "a", "b", "c", "d", "a@b.c"⟩ : Project).id :=
  C5_unique_ids.1 emptyStore (mkBody "a" "b" "c" "d" "a@b.c")
    (mkBody "a" "b" "c" "d" "a@b.c")
    ⟨some 1, "a", "b", "c", "d", "a@b.c"⟩ ⟨some 2, "a", "b", "c", "d", "a@b.c"⟩
    (by decide) (by decide)

/-- C6: calling list twice with no intervening create returns the identical
response (same records, same field values, same order) and the identical
store. -/
theorem C6_list_idempotent (s : StoreState) :
    list_projects (list_projects s).2 = list_projects s := rfl

/-- C7: on the empty store, list succeeds with status 200 and the empty
sequence, and on every store list returns status 200, never an error. -/
theorem C7_empty_store_ok :
    list_projects emptyStore = ((200, ([] : List Project)), emptyStore) ∧
    ∀ s : StoreState, (list_projects s).1.1 = 200 :=
  ⟨rfl, fun _ => rfl⟩

/-- C8: with a syntactically valid email, create accepts any string values
for name, owner, location and sector (the empty string included) and
succeeds with status 201 and a stored record holding exactly those
values. -/
theorem C8_any_strings_accepted (s : StoreState) (n o l se e : String)
    (h : isValidEmail e = true) :
    (create_project s (mkBody n o l se e)).1.status = 201 ∧
    (create_project s (mkBody n o l se e)).1.body =
      some ⟨some (nextId s), n, o, l, se, e⟩ := by
  rw [create_mkBody_valid s n o l se e h]
  exact ⟨rfl, rfl⟩

/-- Concrete instance of C8: all four unconstrained fields empty. -/
theorem C8_any_strings_accepted_witness :
    (create_project emptyStore (mkBody "" "" "" "" "ana@example.com")).1.status
      = 201 ∧
    (create_project emptyStore (mkBody "" "" "" "" "ana@example.com")).1.body =
      some ⟨some (nextId emptyStore), "", "", "", "", "ana@example.com"⟩ :=
  C8_any_strings_accepted emptyStore "" "" "" "" "ana@example.com" (by decide)

/-- C9: the root operation takes no input and always returns status 200 with
a body of exactly one field named message holding the fixed greeting; being
a constant of the embedding, it is the same on every call and independent of
the store. -/
theorem C9_root_greeting :
    read_root =
      (200, [("message", "API de la Plataforma de Contenidos funcionando con SQLite!")]) ∧
    read_root.2.length = 1 :=
  ⟨rfl, rfl⟩

/-- C10: a request body holding the five required fields plus extra fields
whose names are not among the five is handled exactly as the body without
the extras: the unknown fields are ignored, and with valid values the
create succeeds with 201 and a stored record holding only the five business
fields and the assigned identity. -/
theorem C10_extra_fields_ignored (s : StoreState) (b : RawBody)
    (extras : List (String × String))
    (hex : ∀ kv ∈ extras,
      kv.1 ∉ (["name", "owner", "location", "sector", "email"] : List String)) :
    create_project s ⟨b.fields ++ extras⟩ = create_project s b ∧
    ∀ n o l se e : String, isValidEmail e = true →
      (create_project s ⟨(mkBody n o l se e).fields ++ extras⟩).1.status = 201 ∧
      (create_project s ⟨(mkBody n o l se e).fields ++ extras⟩).1.body =
        some ⟨some (nextId s), n, o, l, se, e⟩ := by
  have key : ∀ b' : RawBody,
      parseProjectCreate ⟨b'.fields ++ extras⟩ = parseProjectCreate b' := by
    intro b'
    obtain ⟨fs⟩ := b'
    have hk : ∀ k : String,
        k ∈ (["name", "owner", "location", "sector", "email"] : List String) →
        RawBody.lookup ⟨fs ++ extras⟩ k = RawBody.lookup ⟨fs⟩ k := by
      intro k hkmem
      exact lookup_append_none fs extras k
        (fun kv hkv h1 => hex kv hkv (by rw [h1]; exact hkmem))
    unfold parseProjectCreate
    rw [hk "name" (by simp), hk "owner" (by simp), hk "location" (by simp),
      hk "sector" (by simp), hk "email" (by simp)]
  have hcreate : ∀ b' : RawBody,
      create_project s ⟨b'.fields ++ extras⟩ = create_project s b' := by
    intro b'
    unfold create_project
    rw [key b']
  refine ⟨hcreate b, ?_⟩
  intro n o l se e he
  rw [hcreate (mkBody n o l se e), create_mkBody_valid s n o l se e he]
  exact ⟨rfl, rfl⟩

/-- Concrete instance of C10: one unknown extra field is ignored and the
create succeeds. -/
theorem C10_extra_fields_ignored_witness :
    (create_project emptyStore
        ⟨(mkBody "a" "b" "c" "d" "a@b.c").fields ++ [("unknown", "x")]⟩).1.status
      = 201 ∧
    (create_project emptyStore
        ⟨(mkBody "a" "b" "c" "d" "a@b.c").fields ++ [("unknown", "x")]⟩).1.body =
      some ⟨some (nextId emptyStore), "a", "b", "c", "d", "a@b.c"⟩ :=
  (C10_extra_fields_ignored emptyStore (mkBody "a" "b" "c" "d" "a@b.c")
    [("unknown", "x")] (by decide)).2 "a" "b" "c" "d" "a@b.c" (by decide)
